import Mathlib

/-!
Shallow embedding of the TaskManager JSON-file data-access layer
(src/src/DB/db.ts).

The store file is modelled by an explicit state (FileContent): it is
absent, holds unparseable text, holds valid JSON that is not an array,
or holds a JSON array of task records.  JSON serialisation of a task
array is abstracted as the identity on the list of records (stringify
followed by parse returns the same records), so a well-formed file is
represented directly by its List Task.  File writes are modelled as
always succeeding; disk-failure paths are outside the claims.  Each DB
operation becomes a function from the file state to a pair of an
outcome (Except String, mirroring thrown errors) and the file state
after the call.
-/

namespace TaskManager

/-- Task record as stored in the JSON file: integer id, title string,
completed flag (src/src/types, used throughout db.ts). -/
structure Task where
  id : Int
  title : String
  completed : Bool
  deriving Repr, DecidableEq

/-- State of the single store file named by DB_FILE. -/
inductive FileContent where
  /-- The file does not exist. -/
  | absent
  /-- The file exists but its text is not valid JSON (JSON.parse throws). -/
  | corrupt
  /-- The file holds valid JSON that is not an array. -/
  | notArray
  /-- The file holds a JSON array of task records. -/
  | good (data : List Task)
  deriving Repr, DecidableEq

/-- Outcome test for the Except side of a call. -/
def isErr {α : Type} : Except String α → Bool
  | .error _ => true
  | .ok _ => false

/-- DB.createDB: writes "[]" when the file is absent and returns true,
returns false when it already exists. -/
def createDB : FileContent → Bool × FileContent
  | .absent => (true, .good [])
  | fs => (false, fs)

/-- DB.DBExists: fs.existsSync on the store file. -/
def DBExists : FileContent → Bool
  | .absent => false
  | _ => true

/-- DB.getTaskByID: creates the file (returning null) when absent,
otherwise parses the file and finds the first task with the given id.
On a non-array JSON value the `data.find` call raises a TypeError that
the surrounding catch rethrows as a syntax error. -/
def getTaskByID (id : Int) : FileContent → Except String (Option Task) × FileContent
  | .absent => (.ok none, .good [])
  | .corrupt => (.error "Syntax error in DB file.", .corrupt)
  | .notArray => (.error "Syntax error in DB file.", .notArray)
  | .good data => (.ok (data.find? (fun t => t.id == id)), .good data)

/-- DB.getTaskByTitle: same shape as getTaskByID with a case-sensitive
exact title match. -/
def getTaskByTitle (title : String) : FileContent → Except String (Option Task) × FileContent
  | .absent => (.ok none, .good [])
  | .corrupt => (.error "Syntax error in DB file.", .corrupt)
  | .notArray => (.error "Syntax error in DB file.", .notArray)
  | .good data => (.ok (data.find? (fun t => t.title == title)), .good data)

/-- DB.getAllTasks: creates the file and returns [] when absent; returns
the parsed array, or [] when the JSON value is not an array
(Array.isArray(data) ? data : []). -/
def getAllTasks : FileContent → Except String (List Task) × FileContent
  | .absent => (.ok [], .good [])
  | .corrupt => (.error "Syntax error in DB file.", .corrupt)
  | .notArray => (.ok [], .notArray)
  | .good data => (.ok data, .good data)

/-- The auto-generated id in DB.saveTask for id = 0:
data.length > 0 ? data[data.length - 1].id + 1 : 1 — one more than the
id of the LAST element of the array, or 1 when the array is empty. -/
def nextId (data : List Task) : Int :=
  match data.getLast? with
  | some t => t.id + 1
  | none => 1

/-- The in-place mutation of the update branch of DB.saveTask:
data.find returns a reference to the first task whose id matches, and
its title and completed fields are overwritten (the id is untouched). -/
def updateFirstById (data : List Task) (id : Int) (title : String) (completed : Bool) :
    List Task :=
  match data with
  | [] => []
  | t :: ts =>
    if t.id == id then { t with title := title, completed := completed } :: ts
    else t :: updateFirstById ts id title completed

/-- Body of DB.saveTask after validation and the read phase: data is
the parsed array and cur the file state at that point (the file was
just created as an empty array when it had been absent). -/
def saveTaskBody (id : Int) (title : String) (completed : Bool) (data : List Task)
    (cur : FileContent) : Except String Int × FileContent :=
  if id == 0 then
    let finalId := nextId data
    if (data.find? (fun t => t.title == title)).isSome then
      (.error "A task with this title already exists.", cur)
    else
      (.ok finalId, .good (data ++ [⟨finalId, title, completed⟩]))
  else
    match data.find? (fun t => t.id == id) with
    | none => (.error "Task not found", cur)
    | some _ =>
      if (data.find? (fun t => t.title == title && t.id != id)).isSome then
        (.error "Another task already has this title.", cur)
      else
        (.ok id, .good (updateFirstById data id title completed))

/-- DB.saveTask: validates the id (non-negative integer) and the title
(at least 3 characters) before touching the file; then reads the file,
creating it as an empty array when absent; then either appends a new
task with the auto-generated id (id = 0) or overwrites the fields of
the existing task with that id; finally writes the array back.  On a
corrupt file JSON.parse throws; on a non-array JSON value the
`data.find` call throws a TypeError; both propagate to the caller. -/
def saveTask (id : Int) (title : String) (completed : Bool) (fs : FileContent) :
    Except String Int × FileContent :=
  if id < 0 then
    (.error "id must be an integer and greater than or equal to zero.", fs)
  else if title.length < 3 then
    (.error "title must be a string and at least three characters long.", fs)
  else
    match fs with
    | .corrupt => (.error "Unexpected token in JSON at position 0", .corrupt)
    | .notArray => (.error "data.find is not a function", .notArray)
    | .absent => saveTaskBody id title completed [] (.good [])
    | .good data => saveTaskBody id title completed data (.good data)

/-- DB.insertBulkData, array branch: the input array is stringified and
written, overwriting the whole file regardless of its previous state. -/
def insertBulkData (data : List Task) (_fs : FileContent) :
    Except String Unit × FileContent :=
  (.ok (), .good data)

/-- DB.deleteTaskByID: rejects any id that is not a positive integer
before touching the file; reads the file unconditionally (an absent
file makes readFileSync throw, rethrown as a read error); filters out
the tasks with the given id; returns false without writing when
nothing was removed, otherwise writes the filtered array. -/
def deleteTaskByID (id : Int) (fs : FileContent) : Except String Bool × FileContent :=
  if id ≤ 0 then
    (.error "task id must be a positive integer", fs)
  else
    match fs with
    | .absent => (.error "Cannot read DB file: ENOENT: no such file or directory", .absent)
    | .corrupt => (.error "Cannot read DB file: Unexpected token in JSON at position 0", .corrupt)
    | .notArray => (.error "Cannot read DB file: DB file is not in expected format", .notArray)
    | .good data =>
      let newData := data.filter (fun t => t.id != id)
      if newData.length == data.length then
        (.ok false, .good data)
      else
        (.ok true, .good newData)

/-- The ids stored in the file, in array order ([] outside good states). -/
def storeIds : FileContent → List Int
  | .good data => data.map Task.id
  | _ => []

/-- Pairwise-distinct ids in the store. -/
abbrev distinctIds (fs : FileContent) : Prop := (storeIds fs).Nodup

/-- Strictly increasing ids in array order (the invariant the save path
itself maintains); it implies distinctIds. -/
abbrev increasingIds (fs : FileContent) : Prop := (storeIds fs).Sorted (· < ·)

/-- Maximum id among stored tasks (0 when empty); used to state the
spec's phrase "max existing id + 1". -/
def maxId (data : List Task) : Int := data.foldl (fun m t => max m t.id) 0

end TaskManager

namespace TaskManager

/-- Claim C4: for every id, completed flag and file state, calling
saveTask with a title shorter than 3 characters fails with an error
before the file is read or written, leaving the file state unchanged. -/
theorem claim_C4_theorem (id : Int) (T : String) (c : Bool) (fs : FileContent)
    (hT : T.length < 3) :
    isErr (saveTask id T c fs).1 = true ∧ (saveTask id T c fs).2 = fs := by
  by_cases h : id < 0 <;> simp [saveTask, h, hT, isErr]

/-- Witness for claim C4 at id 5, title "ab", an absent file. -/
theorem claim_C4_witness :
    isErr (saveTask 5 "ab" true .absent).1 = true ∧
      (saveTask 5 "ab" true .absent).2 = .absent :=
  claim_C4_theorem 5 "ab" true .absent (by decide)

/-- Claim C5: deleting a positive id that matches no stored task
returns false and leaves the stored collection exactly as it was. -/
theorem claim_C5_theorem (d : List Task) (id : Int) (h1 : 0 < id)
    (h2 : ∀ t ∈ d, t.id ≠ id) :
    deleteTaskByID id (.good d) = (.ok false, .good d) := by
  have hle : ¬ id ≤ 0 := not_le.mpr h1
  have hfilter : d.filter (fun t => t.id != id) = d := by
    apply List.filter_eq_self.mpr
    intro t ht
    simpa using h2 t ht
  simp [deleteTaskByID, hle, hfilter]

/-- Witness for claim C5: deleting id 5 from a store holding only id 1. -/
theorem claim_C5_witness :
    deleteTaskByID 5 (.good [⟨1, "abc", false⟩]) = (.ok false, .good [⟨1, "abc", false⟩]) :=
  claim_C5_theorem [⟨1, "abc", false⟩] 5 (by decide) (by decide)

/-- Claim C6: writing any array of tasks with insertBulkData and then
reading with getAllTasks returns exactly the same tasks, in the same
order, with identical id, title and completed values. -/
theorem claim_C6_theorem (d : List Task) (fs : FileContent) :
    getAllTasks (insertBulkData d fs).2 = (.ok d, .good d) := rfl

/-- Claim C10: deleteTaskByID rejects every id that is not a positive
integer — in particular id 0, the in-memory placeholder — with an
error thrown before the file is touched, so the file state is
unchanged. -/
theorem claim_C10_theorem (id : Int) (fs : FileContent) (h : id ≤ 0) :
    deleteTaskByID id fs = (.error "task id must be a positive integer", fs) := by
  simp [deleteTaskByID, h]

/-- Witness for claim C10 at id 0 over a one-task store. -/
theorem claim_C10_witness :
    deleteTaskByID 0 (.good [⟨1, "abc", false⟩]) =
      (.error "task id must be a positive integer", .good [⟨1, "abc", false⟩]) :=
  claim_C10_theorem 0 (.good [⟨1, "abc", false⟩]) (by decide)

/-- Claim C8: calling saveTask with a nonzero id matching no stored
task fails synchronously and leaves the stored collection unchanged;
with a positive such id (and a valid title) the error is exactly
"Task not found". -/
theorem claim_C8_theorem (d : List Task) (id : Int) (T : String) (c : Bool)
    (h0 : id ≠ 0) (hT : 3 ≤ T.length) (hm : ∀ t ∈ d, t.id ≠ id) :
    (saveTask id T c (.good d)).2 = .good d ∧
    isErr (saveTask id T c (.good d)).1 = true ∧
    (0 < id → (saveTask id T c (.good d)).1 = .error "Task not found") := by
  have hT3 : ¬ T.length < 3 := not_lt.mpr hT
  by_cases hneg : id < 0
  · refine ⟨by simp [saveTask, hneg], by simp [saveTask, hneg, isErr], fun hp => absurd hp (by omega)⟩
  · have hfind : d.find? (fun t => t.id == id) = none := by
      apply List.find?_eq_none.mpr
      intro t ht
      simpa using hm t ht
    have h00 : (id == 0) = false := by simpa using h0
    refine ⟨?_, ?_, fun _ => ?_⟩ <;>
      simp [saveTask, hneg, hT3, saveTaskBody, h00, hfind, isErr]

/-- Witness for claim C8 at id 7 over a store holding only id 1. -/
theorem claim_C8_witness :
    (saveTask 7 "def" false (.good [⟨1, "abc", false⟩])).2 = .good [⟨1, "abc", false⟩] ∧
    isErr (saveTask 7 "def" false (.good [⟨1, "abc", false⟩])).1 = true ∧
    (0 < (7 : Int) → (saveTask 7 "def" false (.good [⟨1, "abc", false⟩])).1 = .error "Task not found") :=
  claim_C8_theorem [⟨1, "abc", false⟩] 7 "def" false (by decide) (by decide) (by decide)

end TaskManager

namespace TaskManager

/-- Claim C3: when the store already contains a task t with title T,
calling saveTask with id 0, or with any id that is not t's id, and
title T fails, leaving the stored collection unchanged — two stored
tasks can never share a title through saveTask. -/
theorem claim_C3_theorem (d : List Task) (T : String) (c : Bool) (id : Int) (t : Task)
    (ht : t ∈ d) (htitle : t.title = T) (hid : id = 0 ∨ t.id ≠ id) :
    isErr (saveTask id T c (.good d)).1 = true ∧ (saveTask id T c (.good d)).2 = .good d := by
  by_cases hneg : id < 0
  · constructor <;> simp [saveTask, hneg, isErr]
  · by_cases hlen : T.length < 3
    · constructor <;> simp [saveTask, hneg, hlen, isErr]
    · have hbody : isErr (saveTaskBody id T c d (.good d)).1 = true ∧
          (saveTaskBody id T c d (.good d)).2 = .good d := by
        by_cases h0 : id = 0
        · subst h0
          have hdup : (d.find? (fun x => x.title == T)).isSome :=
            List.find?_isSome.mpr ⟨t, ht, by simp [htitle]⟩
          constructor <;> simp [saveTaskBody, hdup, isErr]
        · have hne : t.id ≠ id := hid.resolve_left h0
          have h00 : (id == 0) = false := by simpa using h0
          cases hfind : d.find? (fun x => x.id == id) with
          | none => constructor <;> simp [saveTaskBody, h00, hfind, isErr]
          | some u =>
            have hdup : (d.find? (fun x => x.title == T && x.id != id)).isSome :=
              List.find?_isSome.mpr ⟨t, ht, by simp [htitle, hne]⟩
            constructor <;> simp [saveTaskBody, h00, hfind, hdup, isErr]
      simpa [saveTask, hneg, hlen] using hbody

/-- Witness for claim C3: saving a new task with the already-stored
title "abc" fails and leaves the store unchanged. -/
theorem claim_C3_witness :
    isErr (saveTask 0 "abc" false (.good [⟨1, "abc", false⟩])).1 = true ∧
      (saveTask 0 "abc" false (.good [⟨1, "abc", false⟩])).2 = .good [⟨1, "abc", false⟩] :=
  claim_C3_theorem [⟨1, "abc", false⟩] "abc" false 0 ⟨1, "abc", false⟩
    (by decide) rfl (Or.inl rfl)

/-- Claim C7 counterexample: deleteTaskByID on an absent store file
throws a read error and does NOT create the file (it stays absent),
contradicting the claim that every reading operation creates it. -/
theorem claim_C7_counterexample :
    isErr (deleteTaskByID 1 .absent).1 = true ∧ (deleteTaskByID 1 .absent).2 = .absent :=
  ⟨rfl, by decide⟩

/-- Claim C7 (amended): getTaskByID, getTaskByTitle, getAllTasks and
saveTask (with a valid non-negative id and valid title) all turn an
absent store file into an existing one initialized from the empty
array instead of failing; deleteTaskByID is the exception. -/
theorem claim_C7_theorem (id : Int) (T : String) (c : Bool) (hT : 3 ≤ T.length) :
    getTaskByID id .absent = (.ok none, .good []) ∧
    getTaskByTitle T .absent = (.ok none, .good []) ∧
    getAllTasks .absent = (.ok [], .good []) ∧
    (0 ≤ id → (saveTask id T c .absent).2 ≠ .absent) := by
  refine ⟨rfl, rfl, rfl, fun h0 => ?_⟩
  have hneg : ¬ id < 0 := not_lt.mpr h0
  have hlen : ¬ T.length < 3 := not_lt.mpr hT
  by_cases h00 : id = 0
  · subst h00
    simp [saveTask, hlen, saveTaskBody, nextId]
  · have hq : (id == 0) = false := by simpa using h00
    simp [saveTask, hneg, hlen, saveTaskBody, hq]

/-- Witness for claim C7 with id 0 and title "abc". -/
theorem claim_C7_witness :
    getTaskByID 0 .absent = (.ok none, .good []) ∧
    getTaskByTitle "abc" .absent = (.ok none, .good []) ∧
    getAllTasks .absent = (.ok [], .good []) ∧
    (0 ≤ (0 : Int) → (saveTask 0 "abc" false .absent).2 ≠ .absent) :=
  claim_C7_theorem 0 "abc" false (by decide)

end TaskManager

namespace TaskManager

/-- Claim C1 counterexample: on the stored collection with ids in the
order [2, 1] (reachable through insertBulkData), saveTask with id 0 and
the fresh valid title "cde" assigns id 2 — one more than the LAST
task's id — not 3 = (maximum id) + 1 as the claim states, and the
appended id 2 even collides with an existing id. -/
theorem claim_C1_counterexample :
    (saveTask 0 "cde" false (.good [⟨2, "abc", false⟩, ⟨1, "bcd", false⟩])).1 = .ok 2 ∧
    maxId [⟨2, "abc", false⟩, ⟨1, "bcd", false⟩] + 1 = 3 ∧ (2 : Int) ≠ 3 :=
  ⟨rfl, by decide, by decide⟩

/-- Claim C1 (amended): saveTask with id 0 and a valid, non-duplicate
title appends a task whose id is (the id of the LAST task in the
stored array) + 1, or 1 when the collection is empty; this equals
(maximum id) + 1 only when the last task carries the maximal id, for
example when ids are in increasing array order. -/
theorem claim_C1_theorem (d : List Task) (T : String) (c : Bool)
    (hT : 3 ≤ T.length) (hdup : ∀ t ∈ d, t.title ≠ T) :
    saveTask 0 T c (.good d) = (.ok (nextId d), .good (d ++ [⟨nextId d, T, c⟩])) := by
  have hlen : ¬ T.length < 3 := not_lt.mpr hT
  have hfind : d.find? (fun t => t.title == T) = none := by
    apply List.find?_eq_none.mpr
    intro t ht
    simpa using hdup t ht
  simp [saveTask, hlen, saveTaskBody, hfind]

/-- Witness for claim C1: appending to a one-task store with last id 1
assigns id 2. -/
theorem claim_C1_witness :
    saveTask 0 "abc" true (.good [⟨1, "xyz", false⟩]) =
      (.ok 2, .good [⟨1, "xyz", false⟩, ⟨2, "abc", true⟩]) := by
  exact claim_C1_theorem [⟨1, "xyz", false⟩] "abc" true (by decide) (by decide)

/-- Claim C2 counterexample: the store with ids [2, 1] has pairwise
distinct ids, yet saveTask with id 0 and a fresh valid title succeeds
and leaves the store with ids [2, 1, 2] — no longer distinct. -/
theorem claim_C2_counterexample :
    distinctIds (.good [⟨2, "abc", false⟩, ⟨1, "bcd", false⟩]) ∧
    (saveTask 0 "cde" false (.good [⟨2, "abc", false⟩, ⟨1, "bcd", false⟩])).1 = .ok 2 ∧
    ¬ distinctIds (saveTask 0 "cde" false (.good [⟨2, "abc", false⟩, ⟨1, "bcd", false⟩])).2 :=
  ⟨by decide, rfl, by decide⟩

end TaskManager

namespace TaskManager

/-- The update branch of saveTask leaves the stored ids unchanged. -/
theorem map_id_updateFirstById (d : List Task) (k : Int) (T : String) (c : Bool) :
    (updateFirstById d k T c).map Task.id = d.map Task.id := by
  induction d with
  | nil => rfl
  | cons t ts ih =>
    by_cases h : (t.id == k) = true
    · simp [updateFirstById, h]
    · simp [updateFirstById, h, ih]

/-- In a task list with strictly increasing ids, every id is at most
the last task's id. -/
theorem id_le_getLast_of_sorted : ∀ (d : List Task) (t : Task),
    d.getLast? = some t → (d.map Task.id).Sorted (· < ·) →
    ∀ u ∈ d, u.id ≤ t.id := by
  intro d
  induction d with
  | nil => intro t h; simp at h
  | cons x xs ih =>
    intro t hlast hsort u hu
    cases xs with
    | nil =>
      simp only [List.getLast?_singleton, Option.some.injEq] at hlast
      subst hlast
      simp only [List.mem_singleton] at hu
      subst hu
      exact le_refl _
    | cons y ys =>
      rw [List.getLast?_cons_cons] at hlast
      have hmap : (x :: y :: ys).map Task.id = x.id :: (y :: ys).map Task.id := rfl
      rw [hmap, List.sorted_cons] at hsort
      rcases List.mem_cons.mp hu with h | h
      · subst h
        have ht : t ∈ y :: ys := List.mem_of_getLast?_eq_some hlast
        have : u.id < t.id := hsort.1 t.id (List.mem_map.mpr ⟨t, ht, rfl⟩)
        exact le_of_lt this
      · exact ih t hlast hsort.2 u h

/-- deleteTaskByID preserves pairwise-distinct ids from any file state. -/
theorem delete_preserves_distinctIds (id : Int) (fs : FileContent)
    (h : distinctIds fs) : distinctIds (deleteTaskByID id fs).2 := by
  by_cases hle : id ≤ 0
  · simpa [deleteTaskByID, hle] using h
  · cases fs with
    | absent => simpa [deleteTaskByID, hle] using h
    | corrupt => simpa [deleteTaskByID, hle] using h
    | notArray => simpa [deleteTaskByID, hle] using h
    | good data =>
      by_cases hlen : ((data.filter (fun t => t.id != id)).length == data.length) = true
      · simpa [deleteTaskByID, hle, hlen] using h
      · have hsub : ((data.filter (fun t => t.id != id)).map Task.id).Sublist
            (data.map Task.id) :=
          (List.filter_sublist data).map Task.id
        have hnd : ((data.filter (fun t => t.id != id)).map Task.id).Nodup :=
          List.Nodup.sublist hsub h
        simpa [deleteTaskByID, hle, hlen, storeIds] using hnd

/-- saveTask preserves strictly increasing ids from any file state. -/
theorem save_preserves_increasingIds (id : Int) (T : String) (c : Bool)
    (fs : FileContent) (h : increasingIds fs) :
    increasingIds (saveTask id T c fs).2 := by
  by_cases hneg : id < 0
  · simpa [saveTask, hneg] using h
  · by_cases hlen : T.length < 3
    · simpa [saveTask, hneg, hlen] using h
    · cases fs with
      | corrupt => simpa [saveTask, hneg, hlen] using h
      | notArray => simpa [saveTask, hneg, hlen] using h
      | absent =>
        by_cases h0 : id = 0
        · subst h0
          simp only [saveTask, hlen, if_neg, if_false, saveTaskBody, nextId]
          simp
          exact List.sorted_singleton _
        · have hq : (id == 0) = false := by simpa using h0
          simp only [saveTask, hlen, if_neg, if_false, saveTaskBody, hq]
          simp [hneg, hlen, hq]
          exact List.sorted_nil
      | good data =>
        by_cases h0 : id = 0
        · subst h0
          by_cases hdup : (data.find? (fun t => t.title == T)).isSome = true
          · simpa [saveTask, hlen, saveTaskBody, hdup] using h
          · have key : ((data ++ [(⟨nextId data, T, c⟩ : Task)]).map Task.id).Sorted (· < ·) := by
              rw [List.map_append]
              refine List.pairwise_append.mpr ⟨h, List.sorted_singleton _, ?_⟩
              intro a ha b hb
              simp only [List.map_cons, List.map_nil, List.mem_singleton] at hb
              subst hb
              rcases List.mem_map.mp ha with ⟨u, hu, rfl⟩
              cases hl : data.getLast? with
              | none =>
                rw [List.getLast?_eq_none_iff] at hl
                subst hl
                simp at hu
              | some t =>
                have hle := id_le_getLast_of_sorted data t hl h u hu
                show u.id < nextId data
                simp only [nextId, hl]
                omega
            have hred : (saveTask 0 T c (.good data)).2 =
                .good (data ++ [(⟨nextId data, T, c⟩ : Task)]) := by
              simp [saveTask, hlen, saveTaskBody, hdup]
            rw [hred]
            exact key
        · have hq : (id == 0) = false := by simpa using h0
          cases hfind : data.find? (fun t => t.id == id) with
          | none => simpa [saveTask, hneg, hlen, saveTaskBody, hq, hfind] using h
          | some u =>
            by_cases hdup : (data.find? (fun t => t.title == T && t.id != id)).isSome = true
            · simpa [saveTask, hneg, hlen, saveTaskBody, hq, hfind, hdup] using h
            · have hids := map_id_updateFirstById data id T c
              have hgoal : ((updateFirstById data id T c).map Task.id).Sorted (· < ·) := by
                rw [hids]
                exact h
              simpa [saveTask, hneg, hlen, saveTaskBody, hq, hfind, hdup, storeIds]
                using hgoal

/-- Claim C2 (amended): deleteTaskByID preserves pairwise-distinct ids
from every store; saveTask preserves the stronger invariant that ids
are strictly increasing in array order — the invariant its own append
path maintains — and strictly increasing ids are pairwise distinct;
but on a merely-distinct store that is not in increasing order
saveTask can append a duplicate id, and insertBulkData overwrites the
store with its input, so its result has distinct ids exactly when the
input array does. -/
theorem claim_C2_theorem :
    (∀ id fs, distinctIds fs → distinctIds (deleteTaskByID id fs).2) ∧
    (∀ id T c fs, increasingIds fs → increasingIds (saveTask id T c fs).2) ∧
    (∀ fs, increasingIds fs → distinctIds fs) ∧
    (∀ d fs, distinctIds (insertBulkData d fs).2 ↔ (d.map Task.id).Nodup) :=
  ⟨fun id fs h => delete_preserves_distinctIds id fs h,
   fun id T c fs h => save_preserves_increasingIds id T c fs h,
   fun _ h => List.Sorted.nodup h,
   fun _ _ => Iff.rfl⟩

/-- Witness for claim C2 on concrete stores. -/
theorem claim_C2_witness :
    distinctIds (deleteTaskByID 1 (.good [⟨1, "abc", false⟩, ⟨2, "def", false⟩])).2 ∧
    increasingIds (saveTask 0 "ghi" false (.good [⟨1, "abc", false⟩])).2 :=
  ⟨claim_C2_theorem.1 1 (.good [⟨1, "abc", false⟩, ⟨2, "def", false⟩]) (by decide),
   claim_C2_theorem.2.1 0 "ghi" false (.good [⟨1, "abc", false⟩]) (by decide)⟩

end TaskManager

namespace TaskManager

/-- updateFirstById is exactly List.set at the first index whose task
id matches, writing the record with the matched id and the new title
and completed values. -/
theorem updateFirstById_eq_set (d : List Task) (k : Int) (T : String) (c : Bool)
    (hmem : ∃ t ∈ d, t.id = k) :
    ∃ j, ∃ hj : j < d.length,
      (d.get ⟨j, hj⟩).id = k ∧
      (∀ i, ∀ hi : i < j, (d.get ⟨i, lt_trans hi hj⟩).id ≠ k) ∧
      updateFirstById d k T c = d.set j ⟨k, T, c⟩ := by
  induction d with
  | nil =>
    rcases hmem with ⟨t, ht, _⟩
    exact absurd ht (List.not_mem_nil t)
  | cons x xs ih =>
    by_cases hx : x.id = k
    · refine ⟨0, Nat.succ_pos _, hx, ?_, ?_⟩
      · intro i hi
        exact absurd hi (Nat.not_lt_zero i)
      · have hbeq : (x.id == k) = true := by simpa using hx
        simp only [updateFirstById, hbeq, if_true, List.set]
        rw [show ({ x with title := T, completed := c } : Task) = ⟨x.id, T, c⟩ from rfl, hx]
    · have hbeq : (x.id == k) = false := by simpa using hx
      have hmem2 : ∃ t ∈ xs, t.id = k := by
        rcases hmem with ⟨t, ht, htk⟩
        rcases List.mem_cons.mp ht with h | h
        · subst h
          exact absurd htk hx
        · exact ⟨t, h, htk⟩
      rcases ih hmem2 with ⟨j, hj, hjk, hfirst, heq⟩
      refine ⟨j + 1, Nat.succ_lt_succ hj, hjk, ?_, ?_⟩
      · intro i hi
        cases i with
        | zero => exact hx
        | succ i2 => exact hfirst i2 (Nat.lt_of_succ_lt_succ hi)
      · simp only [updateFirstById, hbeq, if_false, List.set]
        rw [heq]
        simp

/-- Claim C9: updating an existing task with saveTask (valid
non-duplicate title, positive stored id k) rewrites the store as
List.set at the first index holding id k, placing the record with the
same id k and the new title and completed values — every other index,
the array order and the length are untouched. -/
theorem claim_C9_theorem (d : List Task) (k : Int) (T : String) (c : Bool)
    (hk : 0 < k) (hT : 3 ≤ T.length)
    (hmem : ∃ t ∈ d, t.id = k)
    (hdup : ∀ t ∈ d, t.title = T → t.id = k) :
    ∃ j, ∃ hj : j < d.length,
      (d.get ⟨j, hj⟩).id = k ∧
      (∀ i, ∀ hi : i < j, (d.get ⟨i, lt_trans hi hj⟩).id ≠ k) ∧
      saveTask k T c (.good d) = (.ok k, .good (d.set j ⟨k, T, c⟩)) := by
  obtain ⟨j, hj, hjk, hfirst, heq⟩ := updateFirstById_eq_set d k T c hmem
  refine ⟨j, hj, hjk, hfirst, ?_⟩
  have hneg : ¬ k < 0 := by omega
  have hlen : ¬ T.length < 3 := not_lt.mpr hT
  have hk0 : (k == 0) = false := by
    simp only [beq_eq_false_iff_ne, ne_eq]
    omega
  have hdupfind : d.find? (fun t => t.title == T && t.id != k) = none := by
    apply List.find?_eq_none.mpr
    intro t ht
    simp only [Bool.and_eq_true, beq_iff_eq, bne_iff_ne, ne_eq, not_and, not_not]
    intro h1
    exact hdup t ht h1
  cases hf : d.find? (fun t => t.id == k) with
  | none =>
    exfalso
    rcases hmem with ⟨t, ht, htk⟩
    have hnone := List.find?_eq_none.mp hf t ht
    simp [htk] at hnone
  | some u =>
    rw [← heq]
    simp [saveTask, hneg, hlen, saveTaskBody, hk0, hf, hdupfind]

/-- Witness for claim C9: updating the task with id 2 in a two-task
store touches only index 1. -/
theorem claim_C9_witness :
    ∃ j, ∃ hj : j < ([⟨1, "abc", false⟩, ⟨2, "def", false⟩] : List Task).length,
      (([⟨1, "abc", false⟩, ⟨2, "def", false⟩] : List Task).get ⟨j, hj⟩).id = 2 ∧
      (∀ i, ∀ hi : i < j,
        (([⟨1, "abc", false⟩, ⟨2, "def", false⟩] : List Task).get ⟨i, lt_trans hi hj⟩).id ≠ 2) ∧
      saveTask 2 "ghi" true (.good [⟨1, "abc", false⟩, ⟨2, "def", false⟩]) =
        (.ok 2, .good (([⟨1, "abc", false⟩, ⟨2, "def", false⟩] : List Task).set j ⟨2, "ghi", true⟩)) :=
  claim_C9_theorem [⟨1, "abc", false⟩, ⟨2, "def", false⟩] 2 "ghi" true (by decide) (by decide)
    ⟨⟨2, "def", false⟩, by decide, rfl⟩ (by decide)

end TaskManager
